import Mathlib

/-!
Verification of the aggregation pipeline of the Market-Management-PL
price-intelligence app (src/app.py), as a shallow embedding in Lean 4.

Prices are modelled as exact rationals (ℚ); Python exceptions are
modelled by `Option` results; the Streamlit render flow is modelled as
pure functions over the values it computes.
-/

namespace MarketPL

/-! ## Price Normalizer (src/app.py, `safe_float`, lines 47-53)

`safe_float` first rewrites the string outside the try-block:
`text.replace("zł", "").replace(",", ".").replace(" ", "")`,
then attempts `float(text)` and returns `None` on any failure.
-/

/-- Removes every (non-overlapping, left-to-right) occurrence of the
two-character substring "zł", as Python's `str.replace("zł", "")`. -/
def removeZl : List Char → List Char
  | [] => []
  | 'z' :: 'ł' :: cs => removeZl cs
  | c :: cs => c :: removeZl cs

/-- Python `str.replace(",", ".")`: every comma becomes a period. -/
def commaToDot (cs : List Char) : List Char :=
  cs.map (fun c => if c = ',' then '.' else c)

/-- Python `str.replace(" ", "")`: every ASCII space is removed. -/
def removeSpaces (cs : List Char) : List Char :=
  cs.filter (fun c => c ≠ ' ')

/-- Whitespace stripped by Python's `float(str)` around the literal. -/
def isPySpace (c : Char) : Bool :=
  c = ' ' || c = '\t' || c = '\n' || c = '\r' || c.toNat = 11 || c.toNat = 12

/-- Numeric value of a digit list (most significant first). -/
def digitsVal (ds : List Char) : Nat :=
  ds.foldl (fun a c => 10 * a + (c.toNat - 48)) 0

/-- A nonempty all-digit chunk, e.g. the exponent digits of a float literal. -/
def parseUnsignedInt (cs : List Char) : Option Nat :=
  if cs ≠ [] ∧ cs.all Char.isDigit then some (digitsVal cs) else none

/-- The syntactic content of a finite Python float literal: sign,
integer-part value, fraction-part value with its digit count, exponent. -/
structure FloatLit where
  neg : Bool
  intVal : Nat
  fracVal : Nat
  fracLen : Nat
  exp : Int
deriving DecidableEq, Repr

/-- Mantissa of a Python float literal: `d+ [. d*]` or `. d+`; returns the
integer-part value, the fraction-part value and digit count, and the
unconsumed remainder. -/
def parseMantissa (cs : List Char) : Option (Nat × Nat × Nat × List Char) :=
  let p := cs.span Char.isDigit
  match p.2 with
  | '.' :: rest2 =>
      let q := rest2.span Char.isDigit
      if p.1 = [] ∧ q.1 = [] then none
      else some (digitsVal p.1, digitsVal q.1, q.1.length, q.2)
  | _ => if p.1 = [] then none else some (digitsVal p.1, 0, 0, p.2)

/-- Optional exponent suffix `e|E [+|-] d+`; the whole remainder must be it.
An empty remainder means exponent 0. -/
def parseExpPart : List Char → Option Int
  | [] => some 0
  | c :: cs =>
    if c = 'e' ∨ c = 'E' then
      match cs with
      | '+' :: ds => (parseUnsignedInt ds).map Int.ofNat
      | '-' :: ds => (parseUnsignedInt ds).map (fun n => -(n : Int))
      | ds => (parseUnsignedInt ds).map Int.ofNat
    else none

/-- Scale a rational by a signed power of ten. -/
def applyExp (q : ℚ) (e : Int) : ℚ :=
  if 0 ≤ e then q * (10 : ℚ) ^ e.toNat else q / (10 : ℚ) ^ (-e).toNat

/-- The exact rational value denoted by a finite float literal. -/
def litVal (f : FloatLit) : ℚ :=
  (if f.neg then -1 else 1) *
    applyExp ((f.intVal : ℚ) + (f.fracVal : ℚ) / (10 : ℚ) ^ f.fracLen) f.exp

/-- Recognizer for a finite Python float literal: surrounding whitespace,
an optional sign, `d+[.d*]` or `.d+`, and an optional `e`-exponent. -/
def parsePyFloat (s : String) : Option FloatLit :=
  let trimmed := ((s.data.dropWhile isPySpace).reverse.dropWhile isPySpace).reverse
  let sb : Bool × List Char :=
    match trimmed with
    | '+' :: r => (false, r)
    | '-' :: r => (true, r)
    | r => (false, r)
  match parseMantissa sb.2 with
  | none => none
  | some (iv, fv, fl, rest) =>
    match parseExpPart rest with
    | none => none
    | some e => some ⟨sb.1, iv, fv, fl, e⟩

/-- Python's `float(str)` on finite decimal literals, over exact
rationals. The non-finite literals (`inf`, `nan`) have no rational value
and are outside this model; no currency token uses them. Returns `none`
exactly where `float()` raises `ValueError`. -/
def pyFloat (s : String) : Option ℚ :=
  (parsePyFloat s).map litVal

/-- Model of `safe_float` (src/app.py lines 47-53): strip the "zł" currency marker,
turn the comma decimal separator into a period, drop spaces, then try
`float`; the bare `except` turns every parse failure into `None`. -/
def safe_float (s : String) : Option ℚ :=
  pyFloat (String.mk (removeSpaces (commaToDot (removeZl s.data))))

/-! ## Observations and marketplace scrapers (src/app.py lines 76-151)

Each scraper builds, per candidate card, a record
`{"seller": ..., "price": ...}` when the card has a price element whose
text parses (`safe_float` not `None`); a missing seller element records
"Unknown seller". All four scrapers share this shape.
-/

/-- One `{"seller": ..., "price": ...}` record appended by a scraper. -/
structure Obs where
  seller : String
  price : ℚ
deriving DecidableEq, Repr

/-- One candidate card of a result page, reduced to what the scraper
reads: the text of its price element (if one matched the selector) and
the text of its seller element (if one matched). -/
structure Card where
  priceText : Option String
  sellerText : Option String

/-- The per-card body of each scraper loop (e.g. src/app.py lines 84-93):
skip the card when no price element or `safe_float` is `None`, default
the seller to "Unknown seller". -/
def extractObs (c : Card) : Option Obs :=
  match c.priceText with
  | none => none
  | some t =>
    match safe_float t with
    | none => none
    | some p =>
      some ⟨match c.sellerText with | some s => s | none => "Unknown seller", p⟩

/-- A scraper's result list: the loop appends one record per card that
yields a price (exceptions inside the loop only skip the card). -/
def scrapeResults (cards : List Card) : List Obs :=
  cards.filterMap extractObs

/-! ## Aggregator (src/app.py, `aggregate_prices`, lines 156-180) -/

/-- What one scraper invocation does in a run: return its list, or raise. -/
inductive Outcome where
  | ok (data : List Obs)
  | err (msg : String)
deriving DecidableEq

/-- The per-site try/except in `aggregate_prices` (lines 165-172):
`results[site] = data` on success, `results[site] = []` on exception. -/
def sourceResult : Outcome → List Obs
  | .ok d => d
  | .err _ => []

/-- Whether the invocation raised (it is then caught and warned about). -/
def isErr : Outcome → Bool
  | .ok _ => false
  | .err _ => true

/-- The `all_prices` contribution of one site (lines 174-179): skipped
when the list is falsy (empty); otherwise its records are dicts (every
scraper returns dict records), so their "price" fields are extended. -/
def sitePrices (d : List Obs) : List ℚ :=
  if d.isEmpty then [] else d.map Obs.price

/-- The `all_prices` loop: extend an accumulator site by site, in
`results` order. -/
def allPricesOf (results : List (String × List Obs)) : List ℚ :=
  results.foldl (fun acc sd => acc ++ sitePrices sd.2) []

/-- The triple returned by `aggregate_prices` (line 180). -/
structure AggregateResult where
  allPrices : List ℚ
  siteCounts : List (String × Nat)
  results : List (String × List Obs)
deriving DecidableEq

/-- Model of `aggregate_prices` generalized over the registered (site, outcome)
list: fold outcomes into `results`, then derive `all_prices` and the
per-site count mapping `{site: len(p)}`. -/
def aggregateGen (sources : List (String × Outcome)) : AggregateResult :=
  let results := sources.map (fun so => (so.1, sourceResult so.2))
  ⟨allPricesOf results, results.map (fun sd => (sd.1, sd.2.length)), results⟩

/-- The four registered sources, in the dict's insertion order
(lines 159-164). -/
def registeredSites : List String :=
  ["Ceneo", "Allegro", "Amazon", "Google"]

/-- Model of `aggregate_prices` with the fixed four-source registry, each source's
single invocation summarized by its `Outcome`. -/
def aggregate_prices (oCeneo oAllegro oAmazon oGoogle : Outcome) : AggregateResult :=
  aggregateGen
    [("Ceneo", oCeneo), ("Allegro", oAllegro), ("Amazon", oAmazon), ("Google", oGoogle)]

/-! ## Median, deviation, currency (src/app.py lines 219-231) -/

/-- Insert into a sorted list (ascending). -/
def insertSorted (x : ℚ) : List ℚ → List ℚ
  | [] => [x]
  | y :: ys => if x ≤ y then x :: y :: ys else y :: insertSorted x ys

/-- Ascending sort, as `np.median` sorts its input. -/
def sortQ (l : List ℚ) : List ℚ :=
  l.foldr insertSorted []

/-- Embedding of `np.median`: middle element of the sorted list for odd length, mean
of the two middle elements for even length. Only ever called on a
nonempty list in the app (the value at `[]` here is an arbitrary total
default, never reached through the guarded callers below). -/
def medianQ (l : List ℚ) : ℚ :=
  let s := sortQ l
  let n := s.length
  if n % 2 = 1 then s.getD (n / 2) 0
  else (s.getD (n / 2 - 1) 0 + s.getD (n / 2) 0) / 2

/-- Line 221: `deviation = (median - rrp) / rrp * 100 if rrp else 0`;
Python truthiness of a float is `≠ 0`. -/
def deviationCalc (rrp median : ℚ) : ℚ :=
  if rrp ≠ 0 then (median - rrp) / rrp * 100 else 0

/-- Currency conversion (lines 230-231, 240, 266-268): plain
multiplication by the exchange rate. -/
def convertAmount (amount rate : ℚ) : ℚ :=
  amount * rate

/-- The currency-display toggle (line 209). -/
inductive Currency where
  | PLN
  | EUR
deriving DecidableEq

/-- Lines 224-228: `rate = 1.0`, replaced by the fetched PLN→EUR rate
only when the toggle is EUR. -/
def rateFor (c : Currency) (liveRate : ℚ) : ℚ :=
  match c with
  | .PLN => 1
  | .EUR => liveRate

/-! ## Render flow after aggregation (src/app.py lines 219-282) -/

/-- The numbers the metrics section computes from a run. -/
structure RunOutput where
  median : ℚ
  deviation : ℚ
  medianConverted : ℚ
  rrpConverted : ℚ
deriving DecidableEq

/-- Lines 219-233 and 281-282: if `all_prices` is falsy the app shows
"No prices found" (`none` here — a normal value, not a raised error);
otherwise it computes the median, the deviation, and the converted
amounts (`rrp_converted = rrp * rate if rrp else 0`). -/
def renderRun (all_prices : List ℚ) (rrp : ℚ) (c : Currency) (liveRate : ℚ) :
    Option RunOutput :=
  if all_prices.isEmpty then none
  else
    let median := medianQ all_prices
    let deviation := deviationCalc rrp median
    let rate := rateFor c liveRate
    some ⟨median, deviation, convertAmount median rate,
          if rrp ≠ 0 then convertAmount rrp rate else 0⟩

/-- Minimum of a nonempty price list (`min(site_prices)`). -/
def listMin : List ℚ → ℚ
  | [] => 0
  | x :: xs => xs.foldl min x

/-- Maximum of a nonempty price list (`max(site_prices)`). -/
def listMax : List ℚ → ℚ
  | [] => 0
  | x :: xs => xs.foldl max x

/-- One row of the per-site table (lines 257-269): sites whose price
list is falsy are skipped (`if prices:`), so `min`/`np.median`/`max`
only ever see a nonempty list. -/
def tableRow (rate : ℚ) (site : String) (prices : List Obs) :
    Option (String × Nat × ℚ × ℚ × ℚ) :=
  if prices.isEmpty then none
  else
    let sp := prices.map Obs.price
    some (site, sp.length, convertAmount (listMin sp) rate,
          convertAmount (medianQ sp) rate, convertAmount (listMax sp) rate)

/-- Model of the `table_data` list built over `site_data.items()`. -/
def table_data (rate : ℚ) (site_data : List (String × List Obs)) :
    List (String × Nat × ℚ × ℚ × ℚ) :=
  site_data.filterMap (fun sd => tableRow rate sd.1 sd.2)

/-! ## Helper lemmas -/

/-- The site-contribution of an empty result list is empty. -/
lemma sitePrices_eq_nil_iff (d : List Obs) : sitePrices d = [] ↔ d = [] := by
  cases d <;> simp [sitePrices]

/-- The `all_prices` fold from any accumulator is the accumulator
followed by the fold from the empty accumulator. -/
lemma allPricesOf_go (rs : List (String × List Obs)) (acc : List ℚ) :
    rs.foldl (fun a sd => a ++ sitePrices sd.2) acc = acc ++ allPricesOf rs := by
  induction rs generalizing acc with
  | nil => simp [allPricesOf]
  | cons sd rs ih =>
    simp only [allPricesOf, List.foldl_cons, List.nil_append]
    rw [ih, ih (sitePrices sd.2)]
    simp

/-- Unfolding `all_prices` one site at a time. -/
lemma allPricesOf_cons (sd : String × List Obs) (rs : List (String × List Obs)) :
    allPricesOf (sd :: rs) = sitePrices sd.2 ++ allPricesOf rs := by
  rw [allPricesOf, List.foldl_cons, allPricesOf_go]
  simp

/-- The `all_prices` of a concatenation of site lists. -/
lemma allPricesOf_append (xs ys : List (String × List Obs)) :
    allPricesOf (xs ++ ys) = allPricesOf xs ++ allPricesOf ys := by
  induction xs with
  | nil => simp [allPricesOf]
  | cons sd xs ih => simp [allPricesOf_cons, ih]

/-- The `all_prices` of an empty site list is empty. -/
lemma allPricesOf_nil : allPricesOf [] = [] := rfl

/-- The metrics section renders the "No prices found" branch exactly for
an empty `all_prices`. -/
lemma renderRun_eq_none_iff (ps : List ℚ) (rrp : ℚ) (c : Currency) (liveRate : ℚ) :
    renderRun ps rrp c liveRate = none ↔ ps = [] := by
  rcases ps with _ | ⟨p, ps⟩ <;> simp [renderRun]

/-! ## Claims -/

/-- C1. The Deviation Calculator returns `(median - reference) / reference * 100`
whenever the reference price is positive, returns exactly `0` when the
reference is `0` (the truthiness guard on line 221 of src/app.py), and in
particular maps (reference 100, median 120) to 20 and
(reference 100, median 80) to -20. -/
theorem deviation_guarded_formula :
    (∀ m r : ℚ, 0 < r → deviationCalc r m = (m - r) / r * 100)
    ∧ (∀ m : ℚ, deviationCalc 0 m = 0)
    ∧ deviationCalc 100 120 = 20
    ∧ deviationCalc 100 80 = -20 := by
  refine ⟨fun m r hr => ?_, fun m => by simp [deviationCalc], ?_, ?_⟩
  · simp [deviationCalc, ne_of_gt hr]
  · norm_num [deviationCalc]
  · norm_num [deviationCalc]

/-- Witness for C1: the positive-reference formula applied at
reference 100, median 150. -/
theorem deviation_guarded_formula_witness :
    deviationCalc 100 150 = (150 - 100) / 100 * 100 :=
  deviation_guarded_formula.1 150 100 (by norm_num)

/-- C2. End-to-end scenario: with reference price 100 and the four
sources returning [110, 90], [], [105], [95, 100], aggregation yields
`all_prices = [110, 90, 105, 95, 100]` in source order, a median of 100,
a deviation of 0%, and per-site counts 2, 0, 1, 2 in registry order. -/
theorem end_to_end_scenario :
    (aggregate_prices (.ok [⟨"a", 110⟩, ⟨"a", 90⟩]) (.ok []) (.ok [⟨"c", 105⟩])
        (.ok [⟨"d", 95⟩, ⟨"d", 100⟩])).allPrices = [110, 90, 105, 95, 100]
    ∧ medianQ (aggregate_prices (.ok [⟨"a", 110⟩, ⟨"a", 90⟩]) (.ok []) (.ok [⟨"c", 105⟩])
        (.ok [⟨"d", 95⟩, ⟨"d", 100⟩])).allPrices = 100
    ∧ deviationCalc 100 (medianQ (aggregate_prices (.ok [⟨"a", 110⟩, ⟨"a", 90⟩]) (.ok [])
        (.ok [⟨"c", 105⟩]) (.ok [⟨"d", 95⟩, ⟨"d", 100⟩])).allPrices) = 0
    ∧ (aggregate_prices (.ok [⟨"a", 110⟩, ⟨"a", 90⟩]) (.ok []) (.ok [⟨"c", 105⟩])
        (.ok [⟨"d", 95⟩, ⟨"d", 100⟩])).siteCounts
      = [("Ceneo", 2), ("Allegro", 0), ("Amazon", 1), ("Google", 2)] := by
  have hm : medianQ (aggregate_prices (.ok [⟨"a", 110⟩, ⟨"a", 90⟩]) (.ok [])
      (.ok [⟨"c", 105⟩]) (.ok [⟨"d", 95⟩, ⟨"d", 100⟩])).allPrices = 100 := by decide
  refine ⟨by decide, hm, ?_, by decide⟩
  rw [hm]
  norm_num [deviationCalc]

/-- C3. Aggregator isolation: a source whose invocation raises
contributes nothing to `all_prices`, leaves every other source's
`all_prices` entries and per-site count exactly as in a run without it,
and is itself recorded in the result mapping with an empty list rather
than aborting the run. -/
theorem aggregator_isolation (pre post : List (String × Outcome)) (site msg : String) :
    (aggregateGen (pre ++ (site, Outcome.err msg) :: post)).allPrices
      = (aggregateGen (pre ++ post)).allPrices
    ∧ (aggregateGen (pre ++ (site, Outcome.err msg) :: post)).siteCounts
      = (aggregateGen pre).siteCounts ++ (site, 0) :: (aggregateGen post).siteCounts
    ∧ (aggregateGen (pre ++ post)).siteCounts
      = (aggregateGen pre).siteCounts ++ (aggregateGen post).siteCounts
    ∧ (site, ([] : List Obs)) ∈ (aggregateGen (pre ++ (site, Outcome.err msg) :: post)).results := by
  refine ⟨?_, ?_, ?_, ?_⟩
  · simp [aggregateGen, allPricesOf_append, allPricesOf_cons, sourceResult, sitePrices]
  · simp [aggregateGen, sourceResult]
  · simp [aggregateGen]
  · simp [aggregateGen, sourceResult]

/-- C4. SiteResultSet completeness: whatever each of the four extractor
invocations does (data, empty, or exception), the result mapping's keys
are exactly the four registered sources in order; every registered
source has an entry, and a source with no observations appears with an
empty list, never an absent key. -/
theorem site_result_completeness :
    (∀ o1 o2 o3 o4 : Outcome,
        (aggregate_prices o1 o2 o3 o4).results.map Prod.fst = registeredSites)
    ∧ (∀ (o1 o2 o3 o4 : Outcome) (s : String), s ∈ registeredSites →
        ∃ d, (s, d) ∈ (aggregate_prices o1 o2 o3 o4).results)
    ∧ (aggregate_prices (.err "x") (.ok []) (.err "y") (.ok [])).results
      = registeredSites.map (fun s => (s, [])) := by
  refine ⟨fun o1 o2 o3 o4 => by simp [aggregate_prices, aggregateGen, registeredSites],
    ?_, by decide⟩
  intro o1 o2 o3 o4 s hs
  simp only [registeredSites, List.mem_cons, List.not_mem_nil, or_false] at hs
  rcases hs with h | h | h | h
  · exact h ▸ ⟨sourceResult o1, by simp [aggregate_prices, aggregateGen]⟩
  · exact h ▸ ⟨sourceResult o2, by simp [aggregate_prices, aggregateGen]⟩
  · exact h ▸ ⟨sourceResult o3, by simp [aggregate_prices, aggregateGen]⟩
  · exact h ▸ ⟨sourceResult o4, by simp [aggregate_prices, aggregateGen]⟩

/-- Witness for C4: with all four invocations raising, the key "Allegro"
is still present in the result mapping. -/
theorem site_result_completeness_witness :
    ∃ d, ("Allegro", d) ∈
      (aggregate_prices (.err "a") (.err "b") (.err "c") (.err "d")).results :=
  site_result_completeness.2.1 _ _ _ _ "Allegro" (by simp [registeredSites])

/-- C5. Price Normalizer totality: on every input string `safe_float`
returns either the represented numeric value or the explicit no-value
result `none` (the bare `except` catches every parse failure, and the
pre-cleaning `replace` calls cannot fail on a string); concrete
locale-formatted strings map to their exact values and pattern-free
strings map to `none`. -/
theorem safe_float_total_or_none :
    (∀ s : String, safe_float s = none ∨ ∃ v : ℚ, safe_float s = some v)
    ∧ safe_float "12,34 zł" = some (617 / 50)
    ∧ safe_float "1 234,56 zł" = some (123456 / 100)
    ∧ safe_float "19,99" = some (1999 / 100)
    ∧ safe_float "abc" = none
    ∧ safe_float "" = none
    ∧ safe_float "1,2,3" = none := by
  refine ⟨fun s => ?_, ?_, ?_, ?_, by decide, by decide, by decide⟩
  · cases h : safe_float s with
    | none => exact Or.inl rfl
    | some v => exact Or.inr ⟨v, rfl⟩
  · have h : parsePyFloat (String.mk (removeSpaces (commaToDot (removeZl "12,34 zł".data))))
        = some ⟨false, 12, 34, 2, 0⟩ := by decide
    simp [safe_float, pyFloat, h, litVal, applyExp]
    norm_num
  · have h : parsePyFloat (String.mk (removeSpaces (commaToDot (removeZl "1 234,56 zł".data))))
        = some ⟨false, 1234, 56, 2, 0⟩ := by decide
    simp [safe_float, pyFloat, h, litVal, applyExp]
    norm_num
  · have h : parsePyFloat (String.mk (removeSpaces (commaToDot (removeZl "19,99".data))))
        = some ⟨false, 19, 99, 2, 0⟩ := by decide
    simp [safe_float, pyFloat, h, litVal, applyExp]
    norm_num

/-- C6. Median computation: `medianQ [10, 20, 30] = 20`,
`medianQ [10, 20] = 15` (mean of the two middle elements), and both
callers of the median compute it only behind a nonemptiness check: the
metrics section returns the no-data value on an empty `all_prices` and
yields a result exactly on nonempty input, and the per-site table skips
a site whose price list is empty. -/
theorem median_statistical_and_guarded :
    medianQ [10, 20, 30] = 20
    ∧ medianQ [10, 20] = 15
    ∧ (∀ (rrp : ℚ) (c : Currency) (live : ℚ), renderRun [] rrp c live = none)
    ∧ (∀ (ps : List ℚ) (rrp : ℚ) (c : Currency) (live : ℚ),
        (renderRun ps rrp c live).isSome ↔ ps ≠ [])
    ∧ (∀ (rate : ℚ) (site : String) (rest : List (String × List Obs)),
        table_data rate ((site, []) :: rest) = table_data rate rest) := by
  refine ⟨by decide, by norm_num [medianQ, sortQ, insertSorted], ?_, ?_, ?_⟩
  · intro rrp c live
    simp [renderRun]
  · intro ps rrp c live
    rcases ps with _ | ⟨p, ps⟩ <;> simp [renderRun]
  · intro rate site rest
    simp [table_data, tableRow]

/-- Counterexample to C7 as stated: in the run where all four sources
raise, the app does report the "No prices found" outcome even though
sources errored, refuting "no-data is reported only when zero sources
error". -/
theorem no_data_claim_counterexample :
    ¬ ((renderRun (aggregate_prices (Outcome.err "boom") (Outcome.err "boom")
            (Outcome.err "boom") (Outcome.err "boom")).allPrices 100 Currency.PLN 1 = none)
        → isErr (Outcome.err "boom") = false) := by
  decide

/-- C7 (amended). The "No prices found" outcome is reported iff every
source contributes zero observations — a source that raises contributes
zero, so errors do not block the no-data report; the outcome is the
normal value `none` of a total function, not a raised error. -/
theorem no_data_iff_all_empty (o1 o2 o3 o4 : Outcome) (rrp : ℚ) (c : Currency) (live : ℚ) :
    renderRun (aggregate_prices o1 o2 o3 o4).allPrices rrp c live = none
      ↔ (sourceResult o1 = [] ∧ sourceResult o2 = [] ∧ sourceResult o3 = []
          ∧ sourceResult o4 = []) := by
  rw [renderRun_eq_none_iff]
  simp [aggregate_prices, aggregateGen, allPricesOf_cons, allPricesOf_nil,
    sitePrices_eq_nil_iff]

/-- C8. Currency conversion is pure multiplication by the exchange rate,
and converting by a nonzero rate then by its reciprocal is the identity
over exact rationals. -/
theorem convert_mul_round_trip :
    (∀ x rate : ℚ, convertAmount x rate = x * rate)
    ∧ (∀ x rate : ℚ, rate ≠ 0 → convertAmount (convertAmount x rate) (1 / rate) = x) := by
  refine ⟨fun x rate => rfl, fun x rate h => ?_⟩
  field_simp [convertAmount]

/-- Witness for C8: the round trip at amount 7 and rate 4. -/
theorem convert_mul_round_trip_witness :
    convertAmount (convertAmount 7 4) (1 / 4) = 7 :=
  convert_mul_round_trip.2 7 4 (by norm_num)

/-- Counterexample to C9 as stated: a candidate card whose price text is
"0" is accepted by the normalizer and recorded, and its recorded price
is not strictly positive. -/
theorem positive_price_counterexample :
    ¬ (∀ o ∈ scrapeResults [⟨some "0", some "X"⟩], 0 < o.price) := by
  have h : parsePyFloat (String.mk (removeSpaces (commaToDot (removeZl "0".data))))
      = some ⟨false, 0, 0, 0, 0⟩ := by decide
  have h0 : safe_float "0" = some 0 := by
    simp [safe_float, pyFloat, h, litVal, applyExp]
  intro hall
  have hlt := hall ⟨"X", 0⟩ (by simp [scrapeResults, extractObs, h0])
  exact lt_irrefl 0 hlt

/-- C9 (amended). Every observation recorded by a scraper loop carries a
price that is the successful `safe_float` parse of some card's price
text (the loop filters only on parse success, not on positivity). -/
theorem recorded_price_parsed (cards : List Card) (o : Obs)
    (ho : o ∈ scrapeResults cards) :
    ∃ c ∈ cards, ∃ t, c.priceText = some t ∧ safe_float t = some o.price := by
  rw [scrapeResults, List.mem_filterMap] at ho
  obtain ⟨c, hc, he⟩ := ho
  obtain ⟨pt, st⟩ := c
  cases pt with
  | none => simp [extractObs] at he
  | some t =>
    cases hsf : safe_float t with
    | none => simp [extractObs, hsf] at he
    | some p =>
      simp only [extractObs, hsf, Option.some.injEq] at he
      refine ⟨⟨some t, st⟩, hc, t, rfl, ?_⟩
      rw [← he]
      exact hsf

/-- Witness for C9 (amended): the card with price text "5" and no seller
element records an observation whose price is the parse of "5". -/
theorem recorded_price_parsed_witness :
    ∃ c ∈ [(⟨some "5", none⟩ : Card)], ∃ t, c.priceText = some t
      ∧ safe_float t = some (Obs.mk "Unknown seller" 5).price :=
  recorded_price_parsed [⟨some "5", none⟩] ⟨"Unknown seller", 5⟩ (by
    have h : parsePyFloat (String.mk (removeSpaces (commaToDot (removeZl "5".data))))
        = some ⟨false, 5, 0, 0, 0⟩ := by decide
    have h5 : safe_float "5" = some 5 := by
      simp [safe_float, pyFloat, h, litVal, applyExp]
    simp [scrapeResults, extractObs, h5])

/-- C10. The reported deviation is independent of the currency-display
toggle and of the fetched exchange rate: it is computed from the
unconverted median and reference before any conversion. -/
theorem deviation_currency_independent (ps : List ℚ) (rrp : ℚ)
    (c1 c2 : Currency) (l1 l2 : ℚ) :
    Option.map RunOutput.deviation (renderRun ps rrp c1 l1)
      = Option.map RunOutput.deviation (renderRun ps rrp c2 l2) := by
  rcases ps with _ | ⟨p, ps⟩ <;> simp [renderRun]

end MarketPL
